import Mathlib

/-!
Verification of the report-generation pipeline of the museum-image archiving
application (Cloud Functions source: functions/src/index.ts, client helper:
the dashboard page component).

The embedding translates the TypeScript source into executable Lean
definitions.  External collaborators (Firestore, Cloud Storage, OpenAI) are
modelled as oracles passed in as function arguments; JavaScript falsy checks
on strings model the empty string as the only falsy string value, and an
absent optional field is modelled with Option.
-/

set_option maxHeartbeats 1000000

/-- A Firestore image document as read by the pipeline and by
retryTextExtraction: fields userId, fileName, imageUrl, extractedText,
status, error. -/
structure ImageDoc where
  userId : String
  fileName : String
  imageUrl : String
  extractedText : String
  status : String
  error : Option String
deriving DecidableEq

/-- One resolved image entry as built in generateReport (index.ts lines
506-519): fileName, imageUrl, extractedText (defaulted when falsy) and the
positional index recorded for exhibit numbering. -/
structure ImageData where
  fileName : String
  imageUrl : String
  extractedText : String
  index : Nat
deriving DecidableEq

/-- The image-identifying content of an entry, without the bookkeeping
exhibit index. -/
def ImageData.content (d : ImageData) : String × String × String :=
  (d.fileName, d.imageUrl, d.extractedText)

/-- Result record returned by processBatch (index.ts line 306):
batchIndex, report, success, optional error message. -/
structure BatchResult where
  batchIndex : Nat
  report : String
  success : Bool
  error : Option String
deriving DecidableEq

/-- The batchMetrics object written on completion of a batched run
(index.ts lines 730-735). -/
structure BatchMetrics where
  totalBatches : Nat
  successfulBatches : Nat
  failedBatches : Nat
  imagesPerBatch : Nat
deriving DecidableEq

/-- Threshold above which generateReport uses batch processing
(index.ts line 539: BATCH_THRESHOLD = 20). -/
def BATCH_THRESHOLD : Nat := 20

/-- Dynamic batch sizing from generateReport (index.ts lines 574-582):
default 5, then the if/else-if chain on imageCount. -/
def tieredBatchSize (imageCount : Nat) : Nat :=
  if imageCount > 200 then 5
  else if imageCount > 100 then 10
  else if imageCount > 50 then 10
  else 5

/-- Embedding of the slice-and-reindex map applied to each batch
(index.ts line 586: map assigning index = i + idx over the slice). -/
def reindexFrom (i : Nat) : List ImageData → List ImageData
  | [] => []
  | img :: rest => { img with index := i } :: reindexFrom (i + 1) rest

/-- Embedding of the batch construction loop (index.ts lines 584-591):
for i = 0; i < imageCount; i += imagesPerBatch, push the reindexed slice
imageData.slice(i, i + imagesPerBatch).  The source loop would not
terminate for imagesPerBatch = 0 (never reached: the tiering always yields
5 or 10), so the model returns [] in that case to stay total. -/
def makeBatchesGo (l : List ImageData) (n per : Nat) : Nat → Nat → List (List ImageData)
  | 0, _ => []
  | fuel + 1, i =>
    if i < n ∧ 0 < per then
      reindexFrom i ((l.drop i).take per) :: makeBatchesGo l n per fuel (i + per)
    else []

/-- The batch construction loop entered with enough fuel for every
iteration (the loop advances by at least one index per step, so n steps
always suffice). -/
def makeBatchesFrom (l : List ImageData) (n per i : Nat) : List (List ImageData) :=
  makeBatchesGo l n per n i

/-- Embedding of the per-image Firestore resolution loop of generateReport
(index.ts lines 506-522): each id is looked up, missing documents are
dropped with a warning, present ones keep the caller-specified position as
their index, and a falsy extractedText field defaults to
"No text extracted". -/
def resolveImagesFrom (ids : List String) (store : String → Option ImageDoc) (index : Nat) :
    List ImageData :=
  match ids with
  | [] => []
  | id :: rest =>
    match store id with
    | none => resolveImagesFrom rest store (index + 1)
    | some d =>
      ⟨d.fileName, d.imageUrl, if d.extractedText = "" then "No text extracted" else d.extractedText,
        index⟩ :: resolveImagesFrom rest store (index + 1)

/-!
Embedding of normalizeReportFormatting (index.ts lines 233-248): six
chained global regex replacements.  Each JavaScript regex is translated
into a sequence of tokens matched by a backtracking matcher with the same
preference order as the JavaScript engine (alternatives left to right,
greedy quantifiers longest first, lazy quantifiers shortest first), and
String.prototype.replace with the g flag is translated into a single left
to right scan over the source string that rewrites non-overlapping
matches.  All six regexes carry the i flag, so literal matching is case
insensitive; the m flag (rules 3-5) is the lineStart token.
-/

/-- Whitespace class of JavaScript regex \s restricted to the ASCII range
(the inputs of interest contain no exotic Unicode spaces). -/
def isWsChar (c : Char) : Bool :=
  c = ' ' || c = '\t' || c = '\n' || c = '\r' || c = '\x0b' || c = '\x0c'

/-- Digit class \d. -/
def isDigitChar (c : Char) : Bool := '0' ≤ c && c ≤ '9'

/-- Literal star, for the quantified escapes in the source patterns. -/
def isStarChar (c : Char) : Bool := c = '*'

/-- Bullet class of rule 4 in the source. -/
def isBulletChar (c : Char) : Bool := c = '•' || c = '-' || c = '*'

/-- Any character other than a newline, the class written as a negated
newline in rule 2. -/
def notNewlineChar (c : Char) : Bool := c ≠ '\n'

/-- One token of a translated regex: a multiline line anchor, a case
insensitive literal, an ordered case insensitive alternation of literals,
or a repeated character class with minimum, optional maximum and laziness
flag. -/
inductive RTok where
  | lineStart : RTok
  | lit : String → RTok
  | alts : List String → RTok
  | cls : (Char → Bool) → Nat → Option Nat → Bool → RTok

/-- Length of the maximal prefix of a list satisfying a character
predicate. -/
def runLen (p : Char → Bool) : List Char → Nat
  | [] => 0
  | c :: t => if p c then runLen p t + 1 else 0

/-- Case insensitive prefix test, the semantics of an i-flagged literal. -/
def ciStartsWith (pat : List Char) (s : List Char) : Bool :=
  (s.take pat.length).map Char.toLower = pat.map Char.toLower

/-- Backtracking matcher for a token sequence at a position of the subject
string.  On success it returns the spans matched by each token (in token
order) and the end position; choices are explored in the JavaScript
preference order and the first full success wins. -/
def matchToks (cs : List Char) : List RTok → Nat → Option (List (Nat × Nat) × Nat)
  | [], pos => some ([], pos)
  | t :: rest, pos =>
    match t with
    | .lineStart =>
      if pos = 0 || cs.getD (pos - 1) ' ' = '\n' || cs.getD (pos - 1) ' ' = '\r' then
        (matchToks cs rest pos).map (fun r => ((pos, pos) :: r.1, r.2))
      else none
    | .lit s =>
      let p := s.toList
      if ciStartsWith p (cs.drop pos) then
        (matchToks cs rest (pos + p.length)).map (fun r => ((pos, pos + p.length) :: r.1, r.2))
      else none
    | .alts l =>
      l.findSome? (fun s =>
        let p := s.toList
        if ciStartsWith p (cs.drop pos) then
          (matchToks cs rest (pos + p.length)).map (fun r => ((pos, pos + p.length) :: r.1, r.2))
        else none)
    | .cls p mn mx lz =>
      let run := runLen p (cs.drop pos)
      let hi := match mx with
        | some m => min run m
        | none => run
      if hi < mn then none
      else
        let cands := if lz then (List.range (hi - mn + 1)).map (fun k => mn + k)
          else (List.range (hi - mn + 1)).map (fun k => hi - k)
        cands.findSome? (fun nSteps =>
          (matchToks cs rest (pos + nSteps)).map (fun r => ((pos, pos + nSteps) :: r.1, r.2)))

/-- Substring of the subject between two positions. -/
def sliceOf (cs : List Char) (sp : Nat × Nat) : List Char :=
  (cs.take sp.2).drop sp.1

/-- Text of the k-th token span, the value of a numbered capture in a
replacement template (JavaScript inserts the original, not lowered,
text). -/
def spanText (cs : List Char) (spans : List (Nat × Nat)) (k : Nat) : List Char :=
  sliceOf cs (spans.getD k (0, 0))

/-- Global replacement scan of String.prototype.replace with the g flag:
positions are tried left to right; at a match the replacement (built from
the original string and the spans) is emitted and scanning resumes at the
match end; otherwise one character is copied.  The fuel argument is the
remaining subject length, enough because every step advances. -/
def replaceScan (cs : List Char) (toks : List RTok)
    (repl : List Char → List (Nat × Nat) → List Char) : Nat → Nat → List Char
  | 0, pos => cs.drop pos
  | fuel + 1, pos =>
    if pos ≥ cs.length then []
    else
      match matchToks cs toks pos with
      | some (spans, e) =>
        if e > pos then repl cs spans ++ replaceScan cs toks repl fuel e
        else repl cs spans ++ cs.getD pos ' ' :: replaceScan cs toks repl fuel (pos + 1)
      | none => cs.getD pos ' ' :: replaceScan cs toks repl fuel (pos + 1)

/-- Application of one g-flagged regex replacement to a whole string. -/
def applyRule (toks : List RTok) (repl : List Char → List (Nat × Nat) → List Char)
    (cs : List Char) : List Char :=
  replaceScan cs toks repl (cs.length + 1) 0

/-- Rule 1 pattern: up to two stars, the literal Exhibit, optional
whitespace, an optional hash, optional whitespace, one or more digits
(capture 1), up to two stars; flags gi. -/
def rule1Toks : List RTok :=
  [.cls isStarChar 0 (some 2) false, .lit "Exhibit", .cls isWsChar 0 none false,
   .cls (fun c => c = '#') 0 (some 1) false, .cls isWsChar 0 none false,
   .cls isDigitChar 1 none false, .cls isStarChar 0 (some 2) false]

/-- Rule 1 replacement: two stars, EXHIBIT, the digits, two stars. -/
def rule1Repl (cs : List Char) (spans : List (Nat × Nat)) : List Char :=
  "**EXHIBIT ".toList ++ spanText cs spans 5 ++ "**".toList

/-- Sub-heading names of the alternation in capture 1 of rule 2. -/
def rule2FirstAlts : List String :=
  ["Date", "Significance", "Materials", "Condition", "Recommendations"]

/-- Sub-heading names of the alternation in capture 3 of rule 2. -/
def rule2SecondAlts : List String :=
  ["Title", "Date", "Significance", "Materials", "Condition", "Recommendations"]

/-- Rule 2 pattern: up to two stars, a first sub-heading name (capture 1),
a colon, up to two stars, optional whitespace, a lazy non-newline run
(capture 2), mandatory whitespace, up to two stars, a second sub-heading
name (capture 3), a colon; flags gi. -/
def rule2Toks : List RTok :=
  [.cls isStarChar 0 (some 2) false, .alts rule2FirstAlts, .lit ":",
   .cls isStarChar 0 (some 2) false, .cls isWsChar 0 none false,
   .cls notNewlineChar 1 none true, .cls isWsChar 1 none false,
   .cls isStarChar 0 (some 2) false, .alts rule2SecondAlts, .lit ":"]

/-- Rule 2 replacement: bold capture 1 with colon, a space, capture 2, a
blank line, bold-opened capture 3 with colon. -/
def rule2Repl (cs : List Char) (spans : List (Nat × Nat)) : List Char :=
  "**".toList ++ spanText cs spans 1 ++ ":** ".toList ++ spanText cs spans 5 ++
    "\n\n**".toList ++ spanText cs spans 8 ++ ":".toList

/-- Section-header alternatives of rules 3 and 4, with the optional
trailing colon expanded in the JavaScript preference order (the greedy
optional colon is tried first inside each alternative). -/
def sectionAltsOptColon : List String :=
  ["Historical Significance:", "Historical Significance", "Physical Condition:",
   "Physical Condition", "Preservation:", "Preservation"]

/-- Section-header alternatives of rules 5 and 6. -/
def sectionAlts : List String :=
  ["Historical Significance", "Physical Condition", "Preservation"]

/-- Rule 3 pattern: line start, optional whitespace, one or more digits, a
dot, mandatory whitespace, a section name with optional colon (capture 1);
flags gmi. -/
def rule3Toks : List RTok :=
  [.lineStart, .cls isWsChar 0 none false, .cls isDigitChar 1 none false, .lit ".",
   .cls isWsChar 1 none false, .alts sectionAltsOptColon]

/-- Rule 3 replacement: capture 1 alone. -/
def rule3Repl (cs : List Char) (spans : List (Nat × Nat)) : List Char :=
  spanText cs spans 5

/-- Rule 4 pattern: line start, optional whitespace, one bullet character,
mandatory whitespace, a section name with optional colon (capture 1);
flags gmi. -/
def rule4Toks : List RTok :=
  [.lineStart, .cls isWsChar 0 none false, .cls isBulletChar 1 (some 1) false,
   .cls isWsChar 1 none false, .alts sectionAltsOptColon]

/-- Rule 4 replacement: capture 1 alone. -/
def rule4Repl (cs : List Char) (spans : List (Nat × Nat)) : List Char :=
  spanText cs spans 4

/-- Rule 5 pattern: line start, a section name (capture 1), a colon,
optional whitespace; flags gmi. -/
def rule5Toks : List RTok :=
  [.lineStart, .alts sectionAlts, .lit ":", .cls isWsChar 0 none false]

/-- Rule 5 replacement: capture 1 followed by a blank line. -/
def rule5Repl (cs : List Char) (spans : List (Nat × Nat)) : List Char :=
  spanText cs spans 1 ++ "\n\n".toList

/-- Rule 6 pattern: a section name (capture 1), a colon, optional
whitespace, anywhere in the string; flags gi. -/
def rule6Toks : List RTok :=
  [.alts sectionAlts, .lit ":", .cls isWsChar 0 none false]

/-- Rule 6 replacement: capture 1 followed by a blank line. -/
def rule6Repl (cs : List Char) (spans : List (Nat × Nat)) : List Char :=
  spanText cs spans 0 ++ "\n\n".toList

/-- Embedding of normalizeReportFormatting (index.ts lines 233-248): the
six replacements chained in source order. -/
def normalizeReportFormatting (report : String) : String :=
  let r1 := applyRule rule1Toks rule1Repl report.toList
  let r2 := applyRule rule2Toks rule2Repl r1
  let r3 := applyRule rule3Toks rule3Repl r2
  let r4 := applyRule rule4Toks rule4Repl r3
  let r5 := applyRule rule5Toks rule5Repl r4
  let r6 := applyRule rule6Toks rule6Repl r5
  String.mk r6

/-- Result of saveReport (index.ts line 255): at most one of the storage
URL and the inline text. -/
structure SavedReport where
  reportUrl : Option String
  report : Option String
deriving DecidableEq

/-- Firestore size threshold of saveReport (index.ts line 257). -/
def MAX_FIRESTORE_SIZE : Nat := 900 * 1024

/-- Embedding of saveReport (index.ts lines 251-290): computes the UTF-8
byte length of the text; above the threshold the text goes to Storage and
only the public URL is returned, otherwise the text itself is returned for
inline storage. -/
def saveReport (reportText reportId bucketName : String) : SavedReport :=
  let reportSizeBytes := reportText.utf8ByteSize
  if reportSizeBytes > MAX_FIRESTORE_SIZE then
    { reportUrl := some ("https://storage.googleapis.com/" ++ bucketName ++ "/reports/" ++
        reportId ++ ".txt"),
      report := none }
  else
    { reportUrl := none, report := some reportText }

/-- Insertion step of the model of Array.prototype.sort with the
comparator (a, b) => a.batchIndex - b.batchIndex (index.ts line 706). -/
def insertByIndex (r : BatchResult) : List BatchResult → List BatchResult
  | [] => [r]
  | b :: t => if r.batchIndex ≤ b.batchIndex then r :: b :: t else b :: insertByIndex r t

/-- Model of batchResults.sort((a, b) => a.batchIndex - b.batchIndex)
(index.ts line 706) as an insertion sort.  In every run of the pipeline
the batch indices are pairwise distinct, so any comparison sort - in
particular the engine's stable sort - produces this same list. -/
def sortByBatchIndex : List BatchResult → List BatchResult
  | [] => []
  | r :: t => insertByIndex r (sortByBatchIndex t)

/-- Ordering predicate established by sortByBatchIndex. -/
def SortedByIdx (l : List BatchResult) : Prop :=
  List.Pairwise (fun a b => a.batchIndex ≤ b.batchIndex) l

/-- The synthetic header of the assembled batch report (index.ts line
710), with the JavaScript falsy defaults for style and depth. -/
def batchHeader (imageCount totalBatches : Nat) (reportStyle reportDepth : String) : String :=
  "# Museum Collection Analysis\n\n**Total Exhibits Analyzed:** " ++ toString imageCount ++
  "\n**Processing Method:** Parallel Batch Processing\n**Batches Processed:** " ++
  toString totalBatches ++ "\n**Report Style:** " ++
  (if reportStyle = "" then "Professional" else reportStyle) ++ "\n**Depth:** " ++
  (if reportDepth = "" then "Standard" else reportDepth) ++ "\n\n---\n\n"

/-- Final assembly of the batch results (index.ts lines 706-713): sort by
batch index ascending, keep the successful results, join their texts with
the section separator under the synthetic header, then normalize. -/
def assembleBatchReport (results : List BatchResult) (imageCount totalBatches : Nat)
    (reportStyle reportDepth : String) : String :=
  let sorted := sortByBatchIndex results
  let successfulResults := sorted.filter (fun r => r.success)
  normalizeReportFormatting
    (batchHeader imageCount totalBatches reportStyle reportDepth ++
      String.intercalate "\n\n---\n\n" (successfulResults.map (fun r => r.report)))

/-!
Embedding of processBatch (index.ts lines 293-455) and of the
batch-mode orchestration of generateReport (index.ts lines 462-904).
The Storage download of one image is the oracle dl (none models a failed
download: the image is logged and omitted from the call payload); the
OpenAI call of a batch is the oracle gen, which receives the batch index
and the successfully downloaded images and either returns the generated
text or throws with a message.  The single-shot OpenAI call is the
separate oracle genSingle, because in the source an exception from it is
caught only by the outer try of generateReport.  Firestore writes inside
that outer try are modelled by the oracle storeErr: some e means the
first write rejects with message e (caught by the outer catch), none
means all writes succeed.
-/

/-- Embedding of processBatch: an empty batch throws on batch[0] before
any call (caught by its own try, yielding a failed result); otherwise the
images that fail to download are omitted and the generation call decides
success; any exception becomes success = false with the message. -/
def processBatch (batch : List ImageData) (batchIndex : Nat) (dl : String → Option String)
    (gen : Nat → List ImageData → Except String String) : BatchResult :=
  if batch.isEmpty then
    { batchIndex := batchIndex, report := "", success := false,
      error := some "Cannot read properties of undefined" }
  else
    let downloadedImages := batch.filter (fun img => (dl img.imageUrl).isSome)
    match gen batchIndex downloadedImages with
    | .ok report => { batchIndex := batchIndex, report := report, success := true, error := none }
    | .error e => { batchIndex := batchIndex, report := "", success := false, error := some e }

/-- Map with an absolute running index, the shape of
batchGroup.map((batch, idx) => processBatch(batch, i + idx, ...))
(index.ts line 613). -/
def mapIdxFrom (f : Nat → List ImageData → BatchResult) (i : Nat) :
    List (List ImageData) → List BatchResult
  | [] => []
  | bb :: rest => f i bb :: mapIdxFrom f (i + 1) rest

/-- Images-processed accumulator of the wave loop (index.ts lines
629-632): the sum over the successful results so far of the length of the
batch at their batch index. -/
def imagesProcessedOf (results : List BatchResult) (batches : List (List ImageData)) : Nat :=
  (results.filter (fun r => r.success)).foldl
    (fun sum r => sum + (batches.getD r.batchIndex []).length) 0

/-- Embedding of the wave loop (index.ts lines 607-644): for
i = 0; i < batches.length; i += 30, run the group of 30 batches, append
the results, and record the progress write of the cumulative
images-processed value.  Returns the accumulated results and the list of
imagesProcessed values written after each wave. -/
def processWavesGo (batches : List (List ImageData)) (dl : String → Option String)
    (gen : Nat → List ImageData → Except String String) :
    Nat → Nat → List BatchResult → List BatchResult × List Nat
  | 0, _, acc => (acc, [])
  | fuel + 1, i, acc =>
    if i < batches.length then
      let group := (batches.drop i).take 30
      let results := mapIdxFrom (fun idx bb => processBatch bb idx dl gen) i group
      let acc2 := acc ++ results
      let rest := processWavesGo batches dl gen fuel (i + 30) acc2
      (rest.1, imagesProcessedOf acc2 batches :: rest.2)
    else (acc, [])

/-- The wave loop entered with enough fuel for every iteration (each wave
advances the index by 30, so batches.length steps always suffice). -/
def processWavesAux (batches : List (List ImageData)) (dl : String → Option String)
    (gen : Nat → List ImageData → Except String String) (i : Nat) (acc : List BatchResult) :
    List BatchResult × List Nat :=
  processWavesGo batches dl gen batches.length i acc

/-- Pair splitting of a failed batch for the retry pass (index.ts lines
668-671): slices of two. -/
def chunkPairsGo (l : List ImageData) : Nat → Nat → List (List ImageData)
  | 0, _ => []
  | fuel + 1, j =>
    if j < l.length then (l.drop j).take 2 :: chunkPairsGo l fuel (j + 2) else []

/-- The pair-splitting loop entered with enough fuel for every
iteration. -/
def chunkPairsFrom (l : List ImageData) (j : Nat) : List (List ImageData) :=
  chunkPairsGo l l.length j

/-- Retry of one failed batch (index.ts lines 665-694): its original
slice is re-split into pairs, each pair is executed sequentially with the
original batch index, and every successful pair flips the success flag
and appends its text to the accumulated report. -/
def retryFailedBatch (r : BatchResult) (batches : List (List ImageData))
    (dl : String → Option String) (gen : Nat → List ImageData → Except String String) :
    BatchResult :=
  (chunkPairsFrom (batches.getD r.batchIndex []) 0).foldl
    (fun acc pair =>
      let retryResult := processBatch pair acc.batchIndex dl gen
      if retryResult.success then
        { acc with success := true, report := acc.report ++ retryResult.report ++ "\n\n" }
      else acc) r

/-- Observable outcome of a completed generateReport run: the saveReport
fields written on the request document, the optional batchMetrics, and
the sequence of imagesProcessed values written to the progress field over
the run (the initializing write carries no imagesProcessed field and is
not part of the sequence). -/
structure CompletedInfo where
  report : Option String
  reportUrl : Option String
  batchMetrics : Option BatchMetrics
  progressTrace : List Nat
deriving DecidableEq

/-- Terminal outcome of one generateReport execution: skipped (status was
not pending), failed with the persisted error message, or completed. -/
inductive RunResult where
  | skipped : RunResult
  | failed : String → RunResult
  | completed : CompletedInfo → RunResult
deriving DecidableEq

/-- The batch list of the batch path (index.ts lines 574-591): tiered
size over the requested image count, partition of the resolved list. -/
def batchesOf (imageData : List ImageData) (imageCount : Nat) : List (List ImageData) :=
  makeBatchesFrom imageData imageCount (tieredBatchSize imageCount) 0

/-- First-attempt results accumulated by the wave loop of the batch
path. -/
def waveResults (imageData : List ImageData) (imageCount : Nat) (dl : String → Option String)
    (gen : Nat → List ImageData → Except String String) : List BatchResult :=
  (processWavesAux (batchesOf imageData imageCount) dl gen 0 []).1

/-- After-wave progress writes of the batch path. -/
def waveWrites (imageData : List ImageData) (imageCount : Nat) (dl : String → Option String)
    (gen : Nat → List ImageData → Except String String) : List Nat :=
  (processWavesAux (batchesOf imageData imageCount) dl gen 0 []).2

/-- Results that failed their first attempt (index.ts line 647; the
source keeps references to these objects while retrying, so their length
is the failedBatches metric even after successful retries). -/
def failedFirstAttempt (imageData : List ImageData) (imageCount : Nat)
    (dl : String → Option String) (gen : Nat → List ImageData → Except String String) :
    List BatchResult :=
  (waveResults imageData imageCount dl gen).filter (fun r => !r.success)

/-- The result list after the retry pass: each first-attempt failure is
replaced by its retried version (the source mutates the shared objects in
place); no retry pass runs when nothing failed. -/
def afterRetryResults (imageData : List ImageData) (imageCount : Nat)
    (dl : String → Option String) (gen : Nat → List ImageData → Except String String) :
    List BatchResult :=
  if (failedFirstAttempt imageData imageCount dl gen).length > 0 then
    (waveResults imageData imageCount dl gen).map
      (fun r => if r.success then r
        else retryFailedBatch r (batchesOf imageData imageCount) dl gen)
  else waveResults imageData imageCount dl gen

/-- Batch-mode body of generateReport (index.ts lines 570-740): tiered
batch size, partition, wave loop, retry pass over the results that failed
their first attempt, final progress write of the full image count,
assembly, saveReport, and the batchMetrics object.  The retry pass
mutates the shared result objects in the source, so the metrics count
successfulBatches on the post-retry state but failedBatches on the
pre-retry failure list. -/
def runBatchMode (imageData : List ImageData) (imageCount : Nat)
    (reportStyle reportDepth : String) (dl : String → Option String)
    (gen : Nat → List ImageData → Except String String) (reportId bucketName : String) :
    CompletedInfo :=
  let batches := batchesOf imageData imageCount
  let batchResults := waveResults imageData imageCount dl gen
  let failedBefore := failedFirstAttempt imageData imageCount dl gen
  let afterRetry := afterRetryResults imageData imageCount dl gen
  let retryWrites :=
    if failedBefore.length > 0 then [imagesProcessedOf batchResults batches] else []
  let successfulCount := ((sortByBatchIndex afterRetry).filter (fun r => r.success)).length
  let finalReport :=
    assembleBatchReport afterRetry imageCount batches.length reportStyle reportDepth
  let saved := saveReport finalReport reportId bucketName
  { report := saved.report, reportUrl := saved.reportUrl,
    batchMetrics := some
      { totalBatches := batches.length, successfulBatches := successfulCount,
        failedBatches := failedBefore.length, imagesPerBatch := tieredBatchSize imageCount },
    progressTrace := 0 :: (waveWrites imageData imageCount dl gen ++ (retryWrites ++ [imageCount])) }

/-- Single-shot body of generateReport (index.ts lines 741-892): one
progress write of zero, per-image downloads with absorbed failures, one
generation call whose exception escapes to the outer catch, the falsy
default for empty content, normalization and saveReport. -/
def runSingleMode (imageData : List ImageData) (dl : String → Option String)
    (genSingle : List ImageData → Except String String) (reportId bucketName : String) :
    Except String CompletedInfo :=
  let downloadedImages := imageData.filter (fun img => (dl img.imageUrl).isSome)
  match genSingle downloadedImages with
  | .error e => .error e
  | .ok content =>
    let rawReport := if content = "" then "Failed to generate report" else content
    let report := normalizeReportFormatting rawReport
    let saved := saveReport report reportId bucketName
    .ok { report := saved.report, reportUrl := saved.reportUrl, batchMetrics := none,
          progressTrace := [0] }

/-- Embedding of generateReport (index.ts lines 462-904): skip unless the
document status is pending; fail on missing required fields (JavaScript
falsy checks); resolve the image ids in order, dropping missing
documents; fail when none resolve; then, inside the outer try (whose
catch persists the exception message as the failed status), either the
batch-mode or the single-shot body, selected by comparing the requested
image id count with BATCH_THRESHOLD. -/
def generateReportRun (status : String) (imageIds : List String)
    (prompt userId reportStyle reportDepth : String) (store : String → Option ImageDoc)
    (dl : String → Option String) (gen : Nat → List ImageData → Except String String)
    (genSingle : List ImageData → Except String String) (storeErr : Option String)
    (reportId bucketName : String) : RunResult :=
  if status ≠ "pending" then .skipped
  else if imageIds = [] ∨ prompt = "" ∨ userId = "" then
    .failed "Missing required fields or image data"
  else
    let imageCount := imageIds.length
    let imageData := resolveImagesFrom imageIds store 0
    if imageData = [] then .failed "No valid images found"
    else
      match storeErr with
      | some e => .failed e
      | none =>
        if imageCount > BATCH_THRESHOLD then
          .completed (runBatchMode imageData imageCount reportStyle reportDepth dl gen
            reportId bucketName)
        else
          match runSingleMode imageData dl genSingle reportId bucketName with
          | .ok info => .completed info
          | .error e => .failed e

/-- Whether a run reached the completed status. -/
def RunResult.isCompletedB : RunResult → Bool
  | .completed _ => true
  | _ => false

/-- Whether a run completed through the batch path (the batch path and
only the batch path writes a batchMetrics object). -/
def RunResult.isBatchCompleted : RunResult → Bool
  | .completed info => info.batchMetrics.isSome
  | _ => false

/-- The imagesProcessed write sequence of a run (empty unless the run
completed). -/
def RunResult.progressTraceOf : RunResult → List Nat
  | .completed info => info.progressTrace
  | _ => []

/-- The batchMetrics of a run, when present. -/
def RunResult.batchMetricsOf : RunResult → Option BatchMetrics
  | .completed info => info.batchMetrics
  | _ => none

/-- Concrete image document for the executable scenarios. -/
def exDoc : ImageDoc := ⟨"u1", "f.jpg", "url", "text", "completed", none⟩

/-- Concrete Firestore oracle: every id resolves except "bad". -/
def exStore : String → Option ImageDoc := fun id => if id = "bad" then none else some exDoc

/-- Concrete download oracle: every download succeeds. -/
def exDl : String → Option String := fun _ => some "bytes"

/-- Concrete generation oracle: every batch call succeeds. -/
def exGenOk : Nat → List ImageData → Except String String := fun _ _ => .ok "SEG"

/-- Concrete single-shot generation oracle. -/
def exGenSingle : List ImageData → Except String String := fun _ => .ok "R"

/-- Concrete generation oracle for the retry scenario: the first batch
fails its full-size first attempt and succeeds on every pair retry. -/
def exGenRecover : Nat → List ImageData → Except String String :=
  fun i b => if i = 0 ∧ b.length = 5 then .error "rate limited" else .ok "SEG"

/-- Wave-loop results viewed from a start index: each remaining batch
processed at its absolute index. -/
def resultsFromAux (b : List (List ImageData)) (dl : String → Option String)
    (gen : Nat → List ImageData → Except String String) (i : Nat) : List BatchResult :=
  mapIdxFrom (fun idx bb => processBatch bb idx dl gen) i (b.drop i)

/-- Wave start bounds of the wave loop: after the wave starting at index
i the results of batches 0 to min (i + 30) len - 1 have accumulated. -/
def waveBoundsGo (len : Nat) : Nat → Nat → List Nat
  | 0, _ => []
  | fuel + 1, i => if i < len then min (i + 30) len :: waveBoundsGo len fuel (i + 30) else []

/-- Wave bounds entered with enough fuel for every iteration. -/
def waveBoundsFrom (len i : Nat) : List Nat := waveBoundsGo len len i

/-- Specification form of the cumulative images-processed value: the sum
over the successful results of the length of the batch at their batch
index. -/
def succSizesSum (rs : List BatchResult) (batches : List (List ImageData)) : Nat :=
  ((rs.filter (fun r => r.success)).map (fun r => (batches.getD r.batchIndex []).length)).sum

/-- A Firestore document event: the trigger system distinguishes creation
from update of a document in a collection. -/
inductive FsEvent where
  | created : String → String → FsEvent
  | updated : String → String → FsEvent
deriving DecidableEq

/-- The registration of imageTextExtraction (index.ts lines 40-45):
onDocumentCreated("images/{imageId}") - the function runs only for
creation events on the images collection, never for updates. -/
def imageTextExtractionTriggersOn : FsEvent → Bool
  | .created collection _ => collection = "images"
  | .updated _ _ => false

/-- Embedding of retryTextExtraction (index.ts lines 182-227): requires
authentication and a non-falsy imageId, loads the image document, checks
ownership, then updates exactly that document to status pending with the
error field deleted.  The update emits an update event on
images/{imageId}.  Returns the new store and the emitted event. -/
def retryTextExtractionRun (stored : String → Option ImageDoc) (auth : Option String)
    (imageId : String) : Except String ((String → Option ImageDoc) × FsEvent) :=
  match auth with
  | none => .error "User must be authenticated"
  | some uid =>
    if imageId = "" then .error "imageId is required"
    else
      match stored imageId with
      | none => .error "Image not found"
      | some doc =>
        if doc.userId ≠ uid then .error "Not authorized to access this image"
        else
          .ok (fun k => if k = imageId then
                some { doc with status := "pending", error := none }
              else stored k,
            .updated "images" imageId)

/-- Concrete two-image store for the retry scenario: img1 failed with an
error, img2 completed, both owned by u1. -/
def retryStore : String → Option ImageDoc :=
  fun k =>
    if k = "img1" then some ⟨"u1", "a.jpg", "url1", "", "failed", some "boom"⟩
    else if k = "img2" then some ⟨"u1", "b.jpg", "url2", "text b", "completed", none⟩
    else none

theorem reindexFrom_append (a b : List ImageData) : ∀ i,
    reindexFrom i (a ++ b) = reindexFrom i a ++ reindexFrom (i + a.length) b := by
  induction a with
  | nil => intro i; simp [reindexFrom]
  | cons x xs ih =>
    intro i
    simp only [List.cons_append, reindexFrom, List.length_cons, List.append_eq]
    rw [ih (i + 1)]
    have harith : i + 1 + xs.length = i + (xs.length + 1) := by omega
    rw [harith]

theorem reindexFrom_nil (i : Nat) : reindexFrom i [] = [] := rfl

theorem reindexFrom_length (l : List ImageData) : ∀ i, (reindexFrom i l).length = l.length := by
  induction l with
  | nil => intro i; rfl
  | cons x xs ih => intro i; simp [reindexFrom, ih]

theorem reindexFrom_map_content (l : List ImageData) : ∀ i,
    (reindexFrom i l).map ImageData.content = l.map ImageData.content := by
  induction l with
  | nil => intro i; rfl
  | cons x xs ih =>
    intro i
    simp only [reindexFrom, List.map_cons, ih (i + 1)]
    rfl

theorem join_makeBatchesGo (l : List ImageData) (n per : Nat) (hn : l.length ≤ n)
    (hper : 0 < per) : ∀ (fuel i : Nat), n ≤ i + fuel →
    (makeBatchesGo l n per fuel i).flatten = reindexFrom i (l.drop i) := by
  intro fuel
  induction fuel with
  | zero =>
    intro i hfuel
    have hdrop : l.drop i = [] := List.drop_eq_nil_of_le (by omega)
    simp [makeBatchesGo, hdrop, reindexFrom_nil]
  | succ fuel ih =>
    intro i hfuel
    simp only [makeBatchesGo]
    by_cases hcond : i < n ∧ 0 < per
    · rw [if_pos hcond]
      simp only [List.flatten_cons]
      rw [ih (i + per) (by omega)]
      have hsplit : l.drop i = (l.drop i).take per ++ (l.drop i).drop per :=
        (List.take_append_drop per (l.drop i)).symm
      have hdd : (l.drop i).drop per = l.drop (i + per) := by
        rw [List.drop_drop]
      by_cases hlen : (l.drop i).length ≤ per
      · have htake : (l.drop i).take per = l.drop i := List.take_of_length_le hlen
        have hdrop2 : l.drop (i + per) = [] := by
          apply List.drop_eq_nil_of_le
          have := List.length_drop i l
          omega
        rw [htake, hdrop2, reindexFrom_nil, List.append_nil]
      · push_neg at hlen
        conv_rhs => rw [hsplit]
        rw [reindexFrom_append, hdd]
        have hlt : ((l.drop i).take per).length = per := by
          rw [List.length_take]
          omega
        rw [hlt]
    · rw [if_neg hcond]
      have hdrop : l.drop i = [] := List.drop_eq_nil_of_le (by omega)
      simp [hdrop, reindexFrom_nil]

theorem join_makeBatchesFrom (l : List ImageData) (n per : Nat) (hn : l.length ≤ n)
    (hper : 0 < per) : ∀ i, (makeBatchesFrom l n per i).flatten = reindexFrom i (l.drop i) := by
  intro i
  exact join_makeBatchesGo l n per hn hper n i (by omega)

/-- C1.  The Batch Partitioner (index.ts lines 584-591) produces batches
whose concatenation in batch-index order is the input list: the flatten of
the batch list is exactly the input list with each record's positional
exhibit index reassigned to its position, so the image content and the
original order (across and within batches) are preserved exactly, and the
batches are contiguous, non-overlapping slices. -/
theorem batchPartition_concat_eq_input (l : List ImageData) (n per : Nat)
    (hne : l ≠ []) (hn : l.length ≤ n) (hper : 0 < per) :
    (makeBatchesFrom l n per 0).flatten = reindexFrom 0 l ∧
    ((makeBatchesFrom l n per 0).flatten).map ImageData.content = l.map ImageData.content := by
  have h0 := join_makeBatchesFrom l n per hn hper 0
  rw [List.drop_zero] at h0
  exact ⟨h0, by rw [h0, reindexFrom_map_content]⟩

/-- Witness for C1 at a concrete two-image list. -/
theorem batchPartition_concat_eq_input_witness :
    (makeBatchesFrom [⟨"a.jpg", "u1", "t1", 0⟩, ⟨"b.png", "u2", "t2", 1⟩] 2 1 0).flatten =
      reindexFrom 0 [⟨"a.jpg", "u1", "t1", 0⟩, ⟨"b.png", "u2", "t2", 1⟩] ∧
    ((makeBatchesFrom [⟨"a.jpg", "u1", "t1", 0⟩, ⟨"b.png", "u2", "t2", 1⟩] 2 1 0).flatten).map
        ImageData.content =
      ([⟨"a.jpg", "u1", "t1", 0⟩, ⟨"b.png", "u2", "t2", 1⟩] : List ImageData).map
        ImageData.content :=
  batchPartition_concat_eq_input [⟨"a.jpg", "u1", "t1", 0⟩, ⟨"b.png", "u2", "t2", 1⟩] 2 1
    (by decide) (by decide) (by decide)

/-- Counterexample for C2 as stated: for 21 images (above the batch-mode
threshold and in the claimed "≤ 50 gives 10" tier) the source selects a
per-batch size of 5, not 10. -/
theorem tieredBatchSize_at_21_is_five_not_ten :
    tieredBatchSize 21 = 5 ∧ tieredBatchSize 21 ≠ 10 := by decide

theorem makeBatchesGo_length (l : List ImageData) (n per : Nat) (hper : 0 < per) :
    ∀ (fuel i : Nat), n ≤ i + fuel →
    (makeBatchesGo l n per fuel i).length = (n - i + per - 1) / per := by
  intro fuel
  induction fuel with
  | zero =>
    intro i hfuel
    simp only [makeBatchesGo, List.length_nil]
    have hni : n - i = 0 := by omega
    rw [hni]
    exact (Nat.div_eq_of_lt (by omega)).symm
  | succ fuel ih =>
    intro i hfuel
    simp only [makeBatchesGo]
    by_cases hcond : i < n ∧ 0 < per
    · rw [if_pos hcond]
      simp only [List.length_cons]
      rw [ih (i + per) (by omega)]
      by_cases hc : per < n - i
      · have e1 : n - (i + per) + per - 1 = n - i - 1 := by omega
        have e2 : n - i + per - 1 = (n - i - 1) + per := by omega
        rw [e1, e2, Nat.add_div_right _ hper]
      · have e1 : n - (i + per) + per - 1 = per - 1 := by omega
        have e2 : n - i + per - 1 = (n - i - 1) + per := by omega
        rw [e1, e2, Nat.add_div_right _ hper, Nat.div_eq_of_lt (by omega),
          Nat.div_eq_of_lt (by omega)]
    · rw [if_neg hcond]
      simp only [List.length_nil]
      have hni : n - i = 0 := by omega
      rw [hni]
      exact (Nat.div_eq_of_lt (by omega)).symm

theorem makeBatchesFrom_length (l : List ImageData) (n per : Nat) (hper : 0 < per) :
    ∀ i, (makeBatchesFrom l n per i).length = (n - i + per - 1) / per := by
  intro i
  exact makeBatchesGo_length l n per hper n i (by omega)

theorem makeBatchesGo_sizes (l : List ImageData) (n per : Nat) (hl : l.length = n)
    (hdvd : per ∣ n) (hper : 0 < per) :
    ∀ (fuel i : Nat), per ∣ i → ∀ b ∈ makeBatchesGo l n per fuel i, b.length = per := by
  intro fuel
  induction fuel with
  | zero =>
    intro i hdvdi b hb
    exact absurd hb (List.not_mem_nil b)
  | succ fuel ih =>
    intro i hdvdi b hb
    simp only [makeBatchesGo] at hb
    by_cases hcond : i < n ∧ 0 < per
    · rw [if_pos hcond] at hb
      rcases List.mem_cons.mp hb with hb | hb
      · subst hb
        rw [reindexFrom_length, List.length_take, List.length_drop, hl]
        have hdi : per ∣ (n - i) := Nat.dvd_sub' hdvd hdvdi
        have hpos : 0 < n - i := by omega
        have : per ≤ n - i := Nat.le_of_dvd hpos hdi
        omega
      · exact ih (i + per) (Dvd.dvd.add hdvdi (dvd_refl per)) b hb
    · rw [if_neg hcond] at hb
      exact absurd hb (List.not_mem_nil b)

theorem makeBatchesFrom_sizes (l : List ImageData) (n per : Nat) (hl : l.length = n)
    (hdvd : per ∣ n) (hper : 0 < per) :
    ∀ i, per ∣ i → ∀ b ∈ makeBatchesFrom l n per i, b.length = per := by
  intro i
  exact makeBatchesGo_sizes l n per hl hdvd hper n i

/-- C2 amended.  The per-batch size actually selected by the source
(index.ts lines 574-582): 5 for 20 < n ≤ 50, 10 for 50 < n ≤ 200, 5 for
n > 200; and a request with 205 resolvable image ids still yields 41
batches of size 5. -/
theorem tieredBatchSize_spec (n : Nat) :
    (20 < n → n ≤ 50 → tieredBatchSize n = 5) ∧
    (50 < n → n ≤ 200 → tieredBatchSize n = 10) ∧
    (200 < n → tieredBatchSize n = 5) ∧
    (∀ l : List ImageData, l.length = 205 →
      tieredBatchSize 205 = 5 ∧
      (makeBatchesFrom l 205 (tieredBatchSize 205) 0).length = 41 ∧
      ∀ b ∈ makeBatchesFrom l 205 (tieredBatchSize 205) 0, b.length = 5) := by
  refine ⟨?_, ?_, ?_, ?_⟩
  · intro h1 h2
    simp only [tieredBatchSize]
    rw [if_neg (by omega), if_neg (by omega), if_neg (by omega)]
  · intro h1 h2
    simp only [tieredBatchSize]
    rw [if_neg (by omega)]
    by_cases h3 : n > 100
    · rw [if_pos h3]
    · rw [if_neg h3, if_pos (by omega)]
  · intro h1
    simp only [tieredBatchSize]
    rw [if_pos (by omega)]
  · intro l hl
    have ht : tieredBatchSize 205 = 5 := by decide
    refine ⟨ht, ?_, ?_⟩
    · rw [ht, makeBatchesFrom_length l 205 5 (by decide) 0]
    · rw [ht]
      exact makeBatchesFrom_sizes l 205 5 hl (by decide) (by decide) 0 (by decide)

/-- Witness for the amended C2 at n = 21, n = 101 and a concrete 205-image
list. -/
theorem tieredBatchSize_spec_witness :
    tieredBatchSize 21 = 5 ∧ tieredBatchSize 101 = 10 ∧ tieredBatchSize 201 = 5 ∧
    (makeBatchesFrom (List.replicate 205 ⟨"f", "u", "t", 0⟩) 205 (tieredBatchSize 205) 0).length =
      41 := by
  refine ⟨(tieredBatchSize_spec 21).1 (by decide) (by decide),
    (tieredBatchSize_spec 101).2.1 (by decide) (by decide),
    (tieredBatchSize_spec 201).2.2.1 (by decide), ?_⟩
  exact ((tieredBatchSize_spec 205).2.2.2 (List.replicate 205 ⟨"f", "u", "t", 0⟩)
    (by rw [List.length_replicate])).2.1

/-- C3 is refuted by this input: the first normalization pass moves the
text after a section-name colon onto a fresh line (rules 5 and 6), which
places the numbered-list prefix "1." at a line start, and only the second
pass can then strip it with rule 3 - so re-running the normalizer changes
the text again.  The spec requires the sequence to be idempotent, and the
code fails that requirement. -/
theorem normalize_not_idempotent_on_numbered_section_input :
    normalizeReportFormatting (normalizeReportFormatting "Preservation: 1. Preservation: b") ≠
      normalizeReportFormatting "Preservation: 1. Preservation: b" ∧
    normalizeReportFormatting "Preservation: 1. Preservation: b" =
      "Preservation\n\n1. Preservation\n\nb" ∧
    normalizeReportFormatting (normalizeReportFormatting "Preservation: 1. Preservation: b") =
      "Preservation\nPreservation\n\nb" := by decide

theorem utf8ByteSize_go_replicate_a (n : Nat) :
    String.utf8ByteSize.go (List.replicate n 'a') = n := by
  induction n with
  | zero => rfl
  | succ k ih =>
    simp only [List.replicate_succ, String.utf8ByteSize.go, ih]
    rfl

theorem utf8ByteSize_replicate_a (n : Nat) :
    (String.mk (List.replicate n 'a')).utf8ByteSize = n :=
  utf8ByteSize_go_replicate_a n

/-- C5.  The Report Sink sets exactly one of the inline text field and the
storage-URL field: the URL exactly when the UTF-8 byte length exceeds
900 * 1024, the inline text otherwise; a 1,000,000-byte report yields only
a URL and a 10,000-byte report is stored inline. -/
theorem saveReport_exactly_one_of_inline_or_url (t reportId bucketName : String) :
    ((saveReport t reportId bucketName).reportUrl.isSome ∧
      (saveReport t reportId bucketName).report = none ↔
        t.utf8ByteSize > 900 * 1024) ∧
    ((saveReport t reportId bucketName).report.isSome ∧
      (saveReport t reportId bucketName).reportUrl = none ↔
        ¬ t.utf8ByteSize > 900 * 1024) ∧
    ((saveReport (String.mk (List.replicate 1000000 'a')) reportId bucketName).reportUrl.isSome ∧
      (saveReport (String.mk (List.replicate 1000000 'a')) reportId bucketName).report = none) ∧
    ((saveReport (String.mk (List.replicate 10000 'a')) reportId bucketName).report =
        some (String.mk (List.replicate 10000 'a')) ∧
      (saveReport (String.mk (List.replicate 10000 'a')) reportId bucketName).reportUrl = none) := by
  refine ⟨?_, ?_, ?_, ?_⟩
  · constructor
    · intro h
      by_contra hnot
      simp only [saveReport, MAX_FIRESTORE_SIZE, if_neg hnot] at h
      simp at h
    · intro h
      simp only [saveReport, MAX_FIRESTORE_SIZE, if_pos h]
      simp
  · constructor
    · intro h
      by_cases hc : t.utf8ByteSize > 900 * 1024
      · exfalso
        simp only [saveReport, MAX_FIRESTORE_SIZE, if_pos hc] at h
        simp at h
      · exact hc
    · intro h
      simp only [saveReport, MAX_FIRESTORE_SIZE, if_neg h]
      simp
  · simp only [saveReport, MAX_FIRESTORE_SIZE, utf8ByteSize_replicate_a,
      if_pos (by norm_num : (1000000 : Nat) > 900 * 1024)]
    simp
  · simp only [saveReport, MAX_FIRESTORE_SIZE, utf8ByteSize_replicate_a,
      if_neg (by norm_num : ¬ (10000 : Nat) > 900 * 1024)]
    simp

theorem insertByIndex_perm (r : BatchResult) (l : List BatchResult) :
    (insertByIndex r l).Perm (r :: l) := by
  induction l with
  | nil => exact List.Perm.refl _
  | cons b t ih =>
    simp only [insertByIndex]
    by_cases hc : r.batchIndex ≤ b.batchIndex
    · rw [if_pos hc]
    · rw [if_neg hc]
      exact List.Perm.trans (ih.cons b) (List.Perm.swap r b t)

theorem sortByBatchIndex_perm (l : List BatchResult) : (sortByBatchIndex l).Perm l := by
  induction l with
  | nil => exact List.Perm.refl _
  | cons r t ih =>
    simp only [sortByBatchIndex]
    exact List.Perm.trans (insertByIndex_perm r (sortByBatchIndex t)) (ih.cons r)

theorem insertByIndex_sorted (r : BatchResult) (l : List BatchResult) (h : SortedByIdx l) :
    SortedByIdx (insertByIndex r l) := by
  induction l with
  | nil =>
    simp only [insertByIndex, SortedByIdx]
    exact List.pairwise_singleton _ r
  | cons b t ih =>
    simp only [insertByIndex]
    rcases List.pairwise_cons.mp h with ⟨hb, ht⟩
    by_cases hc : r.batchIndex ≤ b.batchIndex
    · rw [if_pos hc]
      refine List.pairwise_cons.mpr ⟨?_, h⟩
      intro z hz
      rcases List.mem_cons.mp hz with hz | hz
      · subst hz; exact hc
      · exact le_trans hc (hb z hz)
    · rw [if_neg hc]
      refine List.pairwise_cons.mpr ⟨?_, ih ht⟩
      intro z hz
      have hmem := (insertByIndex_perm r t).mem_iff.mp hz
      rcases List.mem_cons.mp hmem with hz2 | hz2
      · subst hz2; omega
      · exact hb z hz2

theorem sortByBatchIndex_sorted (l : List BatchResult) : SortedByIdx (sortByBatchIndex l) := by
  induction l with
  | nil => exact List.Pairwise.nil
  | cons r t ih => exact insertByIndex_sorted r (sortByBatchIndex t) ih

theorem sorted_eq_of_perm_of_nodup_idx : ∀ (a b : List BatchResult), a.Perm b →
    SortedByIdx a → SortedByIdx b → (a.map (fun r => r.batchIndex)).Nodup → a = b := by
  intro a
  induction a with
  | nil =>
    intro b hp _ _ _
    exact (hp.nil_eq).symm ▸ rfl
  | cons x xs ih =>
    intro b hp ha hb hnd
    cases b with
    | nil => exact absurd hp.symm.nil_eq (by simp)
    | cons y ys =>
      rcases List.pairwise_cons.mp ha with ⟨hxall, ha'⟩
      rcases List.pairwise_cons.mp hb with ⟨hyall, hb'⟩
      by_cases hxy : x = y
      · subst hxy
        have htails := hp.cons_inv
        have hnd' : (xs.map (fun r => r.batchIndex)).Nodup := by
          simp only [List.map_cons] at hnd
          exact hnd.of_cons
        rw [ih ys htails ha' hb' hnd']
      · exfalso
        have hxb : x ∈ y :: ys := hp.subset (List.mem_cons_self x xs)
        have hyb : y ∈ x :: xs := hp.symm.subset (List.mem_cons_self y ys)
        have hxys : x ∈ ys := by
          rcases List.mem_cons.mp hxb with h | h
          · exact absurd h hxy
          · exact h
        have hyxs : y ∈ xs := by
          rcases List.mem_cons.mp hyb with h | h
          · exact absurd h.symm hxy
          · exact h
        have h1 : x.batchIndex ≤ y.batchIndex := hxall y hyxs
        have h2 : y.batchIndex ≤ x.batchIndex := hyall x hxys
        have heq : x.batchIndex = y.batchIndex := le_antisymm h1 h2
        exact hxy (List.inj_on_of_nodup_map hnd (List.mem_cons_self x xs)
          (List.mem_cons_of_mem x hyxs) heq)

/-- C4.  The assembled report text depends only on the set of per-batch
results, not on the order in which batches completed: for any two
completion orders (permutations) of the same results with pairwise
distinct batch indices - which every pipeline run produces, one result per
batch - the assembled text is byte-identical, because assembly sorts by
batch index before concatenating. -/
theorem assembleBatchReport_perm_invariant (rs rs' : List BatchResult)
    (imageCount totalBatches : Nat) (reportStyle reportDepth : String)
    (hperm : rs.Perm rs') (hnd : (rs.map (fun r => r.batchIndex)).Nodup) :
    assembleBatchReport rs imageCount totalBatches reportStyle reportDepth =
      assembleBatchReport rs' imageCount totalBatches reportStyle reportDepth := by
  have hsorteq : sortByBatchIndex rs = sortByBatchIndex rs' := by
    apply sorted_eq_of_perm_of_nodup_idx
    · exact ((sortByBatchIndex_perm rs).trans hperm).trans (sortByBatchIndex_perm rs').symm
    · exact sortByBatchIndex_sorted rs
    · exact sortByBatchIndex_sorted rs'
    · exact ((sortByBatchIndex_perm rs).map (fun r => r.batchIndex)).nodup_iff.mpr hnd
  simp only [assembleBatchReport, hsorteq]

/-- Witness for C4: two completion orders of the same three batch
results. -/
theorem assembleBatchReport_perm_invariant_witness :
    assembleBatchReport [⟨2, "C", true, none⟩, ⟨0, "A", true, none⟩, ⟨1, "B", false, some "e"⟩]
        30 3 "professional" "standard" =
      assembleBatchReport [⟨0, "A", true, none⟩, ⟨1, "B", false, some "e"⟩, ⟨2, "C", true, none⟩]
        30 3 "professional" "standard" :=
  assembleBatchReport_perm_invariant
    [⟨2, "C", true, none⟩, ⟨0, "A", true, none⟩, ⟨1, "B", false, some "e"⟩]
    [⟨0, "A", true, none⟩, ⟨1, "B", false, some "e"⟩, ⟨2, "C", true, none⟩]
    30 3 "professional" "standard" (by decide) (by decide)

theorem runBatchMode_metrics_isSome (imageData : List ImageData) (imageCount : Nat)
    (reportStyle reportDepth : String) (dl : String → Option String)
    (gen : Nat → List ImageData → Except String String) (reportId bucketName : String) :
    (runBatchMode imageData imageCount reportStyle reportDepth dl gen
      reportId bucketName).batchMetrics.isSome = true := by
  simp [runBatchMode]

theorem runSingleMode_metrics_none (imageData : List ImageData) (dl : String → Option String)
    (genSingle : List ImageData → Except String String) (reportId bucketName : String)
    (info : CompletedInfo) (h : runSingleMode imageData dl genSingle reportId bucketName = .ok info) :
    info.batchMetrics = none := by
  simp only [runSingleMode] at h
  cases hg : genSingle (imageData.filter (fun img => (dl img.imageUrl).isSome)) with
  | error e => rw [hg] at h; exact absurd h (by simp)
  | ok content =>
    rw [hg] at h
    simp only [Except.ok.injEq] at h
    rw [← h]

/-- Counterexample for C7 as stated: a request with 21 ids of which only
20 resolve.  The claim says the resolved count (20, at the threshold)
selects single-shot mode; the source compares the requested id count (21)
and takes the batch path. -/
theorem generateReport_mode_counterexample :
    (resolveImagesFrom ("bad" :: List.replicate 20 "ok") exStore 0).length = 20 ∧
    (generateReportRun "pending" ("bad" :: List.replicate 20 "ok") "describe" "u1" "professional"
      "standard" exStore exDl exGenOk exGenSingle none "r1" "bkt").isBatchCompleted = true := by
  constructor
  · decide
  · decide

/-- C7 amended.  Execution mode is decided by comparing the number of
requested image ids (not the resolved count) with the threshold 20: above
it the run completes through the batch path (it writes batchMetrics), at
or below it any completed run is single-shot (no batchMetrics), no matter
how many ids fail to resolve. -/
theorem generateReport_mode_by_requested_count (imageIds : List String)
    (prompt userId reportStyle reportDepth : String) (store : String → Option ImageDoc)
    (dl : String → Option String) (gen : Nat → List ImageData → Except String String)
    (genSingle : List ImageData → Except String String) (storeErr : Option String)
    (reportId bucketName : String)
    (hval : ¬(imageIds = [] ∨ prompt = "" ∨ userId = ""))
    (hres : resolveImagesFrom imageIds store 0 ≠ []) :
    (imageIds.length > 20 → storeErr = none →
      (generateReportRun "pending" imageIds prompt userId reportStyle reportDepth store dl gen
        genSingle storeErr reportId bucketName).isBatchCompleted = true) ∧
    (imageIds.length ≤ 20 → ∀ info,
      generateReportRun "pending" imageIds prompt userId reportStyle reportDepth store dl gen
        genSingle storeErr reportId bucketName = .completed info → info.batchMetrics = none) := by
  constructor
  · intro h20 hse
    subst hse
    simp only [generateReportRun, BATCH_THRESHOLD]
    rw [if_neg (by simp), if_neg hval, if_neg hres, if_pos h20]
    simp only [RunResult.isBatchCompleted]
    exact runBatchMode_metrics_isSome _ _ _ _ _ _ _ _
  · intro h20 info hrun
    simp only [generateReportRun, BATCH_THRESHOLD] at hrun
    rw [if_neg (by simp), if_neg hval, if_neg hres] at hrun
    cases storeErr with
    | some e => exact absurd hrun (by simp)
    | none =>
      simp only at hrun
      rw [if_neg (by omega)] at hrun
      cases hs : runSingleMode (resolveImagesFrom imageIds store 0) dl genSingle
          reportId bucketName with
      | ok info2 =>
        rw [hs] at hrun
        simp only [RunResult.completed.injEq] at hrun
        rw [hrun] at hs
        exact runSingleMode_metrics_none _ _ _ _ _ _ hs
      | error e => rw [hs] at hrun; exact absurd hrun (by simp)

/-- Witness for the amended C7: 21 ids, 20 of them resolving, complete
through the batch path. -/
theorem generateReport_mode_by_requested_count_witness :
    (generateReportRun "pending" ("bad" :: List.replicate 20 "ok") "describe" "u1" "professional"
      "standard" exStore exDl exGenOk exGenSingle none "r1" "bkt").isBatchCompleted = true :=
  (generateReport_mode_by_requested_count ("bad" :: List.replicate 20 "ok") "describe" "u1"
    "professional" "standard" exStore exDl exGenOk exGenSingle none "r1" "bkt"
    (by decide) (by decide)).1 (by decide) rfl

theorem runSingleMode_error_iff (imageData : List ImageData) (dl : String → Option String)
    (genSingle : List ImageData → Except String String) (reportId bucketName : String)
    (e : String) :
    runSingleMode imageData dl genSingle reportId bucketName = .error e ↔
      genSingle (imageData.filter (fun img => (dl img.imageUrl).isSome)) = .error e := by
  simp only [runSingleMode]
  cases hg : genSingle (imageData.filter (fun img => (dl img.imageUrl).isSome)) with
  | error e2 => simp
  | ok content => simp

/-- C6.  Failure semantics of generateReport: a pending request reaches
the terminal failed status only when required fields are missing (the
falsy check on the id list, prompt and user id, persisting the fixed
intake message), when zero image records resolve (persisting the fixed
message), or when an exception escapes to the outer catch - a rejected
Firestore write inside the try, or the single-shot generation call
throwing - in which case the exception message itself is persisted.
Conversely, per-batch generation failures and per-image download failures
are absorbed: with any download and batch-generation oracles whatsoever,
a validated batch-mode run completes, and a validated single-shot run
completes whenever its one generation call returns. -/
theorem generateReport_failure_semantics (imageIds : List String)
    (prompt userId reportStyle reportDepth : String) (store : String → Option ImageDoc)
    (dl : String → Option String) (gen : Nat → List ImageData → Except String String)
    (genSingle : List ImageData → Except String String) (storeErr : Option String)
    (reportId bucketName : String) :
    (∀ e, generateReportRun "pending" imageIds prompt userId reportStyle reportDepth store dl gen
        genSingle storeErr reportId bucketName = .failed e →
      ((imageIds = [] ∨ prompt = "" ∨ userId = "") ∧ e = "Missing required fields or image data") ∨
      (resolveImagesFrom imageIds store 0 = [] ∧ e = "No valid images found") ∨
      storeErr = some e ∨
      (imageIds.length ≤ 20 ∧
        genSingle ((resolveImagesFrom imageIds store 0).filter
          (fun img => (dl img.imageUrl).isSome)) = .error e)) ∧
    (¬(imageIds = [] ∨ prompt = "" ∨ userId = "") → resolveImagesFrom imageIds store 0 ≠ [] →
      storeErr = none → imageIds.length > 20 →
      (generateReportRun "pending" imageIds prompt userId reportStyle reportDepth store dl gen
        genSingle storeErr reportId bucketName).isCompletedB = true) ∧
    (¬(imageIds = [] ∨ prompt = "" ∨ userId = "") → resolveImagesFrom imageIds store 0 ≠ [] →
      storeErr = none → imageIds.length ≤ 20 → ∀ s,
      genSingle ((resolveImagesFrom imageIds store 0).filter
        (fun img => (dl img.imageUrl).isSome)) = .ok s →
      (generateReportRun "pending" imageIds prompt userId reportStyle reportDepth store dl gen
        genSingle storeErr reportId bucketName).isCompletedB = true) := by
  refine ⟨?_, ?_, ?_⟩
  · intro e hrun
    simp only [generateReportRun, BATCH_THRESHOLD] at hrun
    rw [if_neg (by simp)] at hrun
    by_cases hval : imageIds = [] ∨ prompt = "" ∨ userId = ""
    · rw [if_pos hval] at hrun
      simp only [RunResult.failed.injEq] at hrun
      exact Or.inl ⟨hval, hrun.symm⟩
    · rw [if_neg hval] at hrun
      by_cases hres : resolveImagesFrom imageIds store 0 = []
      · rw [if_pos hres] at hrun
        simp only [RunResult.failed.injEq] at hrun
        exact Or.inr (Or.inl ⟨hres, hrun.symm⟩)
      · rw [if_neg hres] at hrun
        cases storeErr with
        | some e2 =>
          simp only [RunResult.failed.injEq] at hrun
          exact Or.inr (Or.inr (Or.inl (by rw [hrun])))
        | none =>
          simp only at hrun
          by_cases h20 : imageIds.length > 20
          · rw [if_pos h20] at hrun
            exact absurd hrun (by simp)
          · rw [if_neg h20] at hrun
            cases hs : runSingleMode (resolveImagesFrom imageIds store 0) dl genSingle
                reportId bucketName with
            | ok info => rw [hs] at hrun; exact absurd hrun (by simp)
            | error e2 =>
              rw [hs] at hrun
              simp only [RunResult.failed.injEq] at hrun
              rw [hrun] at hs
              exact Or.inr (Or.inr (Or.inr ⟨by omega,
                (runSingleMode_error_iff _ _ _ _ _ _).mp hs⟩))
  · intro hval hres hse h20
    subst hse
    simp only [generateReportRun, BATCH_THRESHOLD]
    rw [if_neg (by simp), if_neg hval, if_neg hres, if_pos h20]
    rfl
  · intro hval hres hse h20 s hgen
    subst hse
    simp only [generateReportRun, BATCH_THRESHOLD]
    rw [if_neg (by simp), if_neg hval, if_neg hres, if_neg (by omega)]
    cases hs : runSingleMode (resolveImagesFrom imageIds store 0) dl genSingle
        reportId bucketName with
    | ok info => rfl
    | error e2 =>
      have := (runSingleMode_error_iff _ _ _ _ _ _).mp hs
      rw [hgen] at this
      exact absurd this (by simp)

/-- Witness for C6: a 21-id batch-mode request in which every download
and every batch generation call fails still completes. -/
theorem generateReport_failure_semantics_witness :
    (generateReportRun "pending" (List.replicate 21 "ok") "describe" "u1" "professional"
      "standard" exStore (fun _ => none) (fun _ _ => .error "boom") exGenSingle none "r1"
      "bkt").isCompletedB = true :=
  (generateReport_failure_semantics (List.replicate 21 "ok") "describe" "u1" "professional"
    "standard" exStore (fun _ => none) (fun _ _ => .error "boom") exGenSingle none "r1"
    "bkt").2.1 (by decide) (by decide) rfl (by decide)

theorem mapIdxFrom_append (f : Nat → List ImageData → BatchResult)
    (a : List (List ImageData)) (b : List (List ImageData)) : ∀ i,
    mapIdxFrom f i (a ++ b) = mapIdxFrom f i a ++ mapIdxFrom f (i + a.length) b := by
  induction a with
  | nil => intro i; simp [mapIdxFrom]
  | cons x xs ih =>
    intro i
    simp only [List.cons_append, mapIdxFrom, List.length_cons, List.append_eq]
    rw [ih (i + 1)]
    have harith : i + 1 + xs.length = i + (xs.length + 1) := by omega
    rw [harith]

theorem mapIdxFrom_length (f : Nat → List ImageData → BatchResult) :
    ∀ (l : List (List ImageData)) (i : Nat), (mapIdxFrom f i l).length = l.length := by
  intro l
  induction l with
  | nil => intro i; rfl
  | cons x xs ih => intro i; simp [mapIdxFrom, ih]

theorem resultsFromAux_split (b : List (List ImageData)) (dl : String → Option String)
    (gen : Nat → List ImageData → Except String String) (i : Nat) :
    resultsFromAux b dl gen i =
      mapIdxFrom (fun idx bb => processBatch bb idx dl gen) i ((b.drop i).take 30) ++
        resultsFromAux b dl gen (i + 30) := by
  simp only [resultsFromAux]
  conv_lhs => rw [show b.drop i = (b.drop i).take 30 ++ (b.drop i).drop 30 from
    (List.take_append_drop 30 (b.drop i)).symm]
  rw [mapIdxFrom_append]
  by_cases hlen : (b.drop i).length ≤ 30
  · have h30 : (b.drop i).drop 30 = [] := List.drop_eq_nil_of_le hlen
    have h30b : b.drop (i + 30) = [] := by
      apply List.drop_eq_nil_of_le
      have := List.length_drop i b
      omega
    rw [h30, h30b]
    simp [mapIdxFrom]
  · have hlt : ((b.drop i).take 30).length = 30 := by
      rw [List.length_take]
      omega
    rw [hlt, List.drop_drop]

theorem processWavesGo_fst (b : List (List ImageData)) (dl : String → Option String)
    (gen : Nat → List ImageData → Except String String) : ∀ (fuel i : Nat)
    (acc : List BatchResult), b.length ≤ i + fuel →
    (processWavesGo b dl gen fuel i acc).1 = acc ++ resultsFromAux b dl gen i := by
  intro fuel
  induction fuel with
  | zero =>
    intro i acc hfuel
    have hdrop : b.drop i = [] := List.drop_eq_nil_of_le (by omega)
    simp [processWavesGo, resultsFromAux, hdrop, mapIdxFrom]
  | succ fuel ih =>
    intro i acc hfuel
    simp only [processWavesGo]
    by_cases hcond : i < b.length
    · rw [if_pos hcond]
      simp only
      rw [ih (i + 30) _ (by omega), List.append_assoc, ← resultsFromAux_split]
    · rw [if_neg hcond]
      have hdrop : b.drop i = [] := List.drop_eq_nil_of_le (by omega)
      simp [resultsFromAux, hdrop, mapIdxFrom]

theorem processWavesAux_fst (b : List (List ImageData)) (dl : String → Option String)
    (gen : Nat → List ImageData → Except String String) : ∀ (i : Nat) (acc : List BatchResult),
    (processWavesAux b dl gen i acc).1 = acc ++ resultsFromAux b dl gen i := by
  intro i acc
  exact processWavesGo_fst b dl gen b.length i acc (by omega)

theorem waveResults_length (imageData : List ImageData) (imageCount : Nat)
    (dl : String → Option String) (gen : Nat → List ImageData → Except String String) :
    (waveResults imageData imageCount dl gen).length = (batchesOf imageData imageCount).length := by
  rw [waveResults, processWavesAux_fst, List.nil_append, resultsFromAux, List.drop_zero,
    mapIdxFrom_length]

theorem length_filter_add_not (p : BatchResult → Bool) (l : List BatchResult) :
    (l.filter p).length + (l.filter (fun x => !(p x))).length = l.length := by
  induction l with
  | nil => rfl
  | cons x xs ih =>
    by_cases hx : p x
    · simp only [List.filter_cons, hx, if_pos, List.length_cons]
      simp only [Bool.not_eq_true'] at *
      simp [hx, ih]
      omega
    · simp only [List.filter_cons]
      have hx' : p x = false := by simpa using hx
      simp [hx', ih]
      omega

theorem retry_succ_count (g : BatchResult → BatchResult) (rs : List BatchResult) :
    ((rs.map (fun r => if r.success then r else g r)).filter (fun r => r.success)).length =
      (rs.filter (fun r => r.success)).length +
        (rs.filter (fun r => !r.success && (g r).success)).length := by
  induction rs with
  | nil => rfl
  | cons r rest ih =>
    simp only [List.map_cons, List.filter_cons]
    by_cases hr : r.success
    · simp [hr, ih]
      omega
    · have hr' : r.success = false := by simpa using hr
      by_cases hg : (g r).success
      · simp [hr', hg, ih]
        omega
      · have hg' : (g r).success = false := by simpa using hg
        simp [hr', hg', ih]

theorem filter_conj_length_le (p q : BatchResult → Bool) (l : List BatchResult) :
    (l.filter (fun x => p x && q x)).length ≤ (l.filter p).length := by
  induction l with
  | nil => exact le_refl 0
  | cons x xs ih =>
    simp only [List.filter_cons]
    by_cases hp : p x
    · by_cases hq : q x
      · simp [hp, hq]
        omega
      · have hq' : q x = false := by simpa using hq
        simp [hp, hq']
        omega
    · have hp' : p x = false := by simpa using hp
      simp [hp']
      exact ih

theorem sort_filter_success_length (l : List BatchResult) :
    ((sortByBatchIndex l).filter (fun r => r.success)).length =
      (l.filter (fun r => r.success)).length :=
  ((sortByBatchIndex_perm l).filter (fun r => r.success)).length_eq

/-- Counterexample for C9 as stated: 21 images in 5 batches, the first
batch fails its first attempt and is fully recovered by the pair retry;
the persisted metrics are totalBatches 5, successfulBatches 5 and
failedBatches 1, so successfulBatches + failedBatches is 6, not
totalBatches, although every batch's text is in the final report. -/
theorem batchMetrics_partition_counterexample :
    (generateReportRun "pending" (List.replicate 21 "ok") "describe" "u1" "professional"
        "standard" exStore exDl exGenRecover exGenSingle none "r1" "bkt").batchMetricsOf =
      some ⟨5, 5, 1, 5⟩ ∧
    ¬ ((5 : Nat) + 1 = 5) := by
  constructor
  · decide
  · decide

/-- C9 amended.  On completion of a batch-mode run the metrics satisfy:
totalBatches is the number of batches; successfulBatches counts exactly
the results whose text is included in the final report (the post-retry
successes); failedBatches counts the batches that failed their FIRST
attempt, including those later recovered by the retry pass; consequently
successfulBatches + failedBatches = totalBatches + (number of recovered
batches), which exceeds totalBatches exactly when some retry succeeded -
the claimed partition identity holds only in runs where no retry
recovers a batch. -/
theorem batchMetrics_totals (imageData : List ImageData) (imageCount : Nat)
    (reportStyle reportDepth : String) (dl : String → Option String)
    (gen : Nat → List ImageData → Except String String) (reportId bucketName : String) :
    (runBatchMode imageData imageCount reportStyle reportDepth dl gen reportId
        bucketName).batchMetrics =
      some
        { totalBatches := (batchesOf imageData imageCount).length,
          successfulBatches :=
            ((afterRetryResults imageData imageCount dl gen).filter
              (fun r => r.success)).length,
          failedBatches := (failedFirstAttempt imageData imageCount dl gen).length,
          imagesPerBatch := tieredBatchSize imageCount } ∧
    ((afterRetryResults imageData imageCount dl gen).filter (fun r => r.success)).length +
        (failedFirstAttempt imageData imageCount dl gen).length =
      (batchesOf imageData imageCount).length +
        ((waveResults imageData imageCount dl gen).filter
          (fun r => !r.success &&
            (retryFailedBatch r (batchesOf imageData imageCount) dl gen).success)).length := by
  constructor
  · simp only [runBatchMode, sort_filter_success_length]
  · have hcomp := length_filter_add_not (fun r => r.success)
      (waveResults imageData imageCount dl gen)
    have hlen := waveResults_length imageData imageCount dl gen
    by_cases hf : (failedFirstAttempt imageData imageCount dl gen).length > 0
    · rw [afterRetryResults, if_pos hf, retry_succ_count]
      rw [failedFirstAttempt] at hf ⊢
      omega
    · rw [afterRetryResults, if_neg hf]
      have hzero : ((waveResults imageData imageCount dl gen).filter
          (fun r => !r.success &&
            (retryFailedBatch r (batchesOf imageData imageCount) dl gen).success)).length = 0 := by
        have hle := filter_conj_length_le (fun r => !r.success)
          (fun r => (retryFailedBatch r (batchesOf imageData imageCount) dl gen).success)
          (waveResults imageData imageCount dl gen)
        rw [failedFirstAttempt] at hf
        omega
      rw [hzero]
      rw [failedFirstAttempt] at hf ⊢
      omega

theorem foldl_add_map (f : BatchResult → Nat) :
    ∀ (l : List BatchResult) (a : Nat), l.foldl (fun s r => s + f r) a = a + (l.map f).sum := by
  intro l
  induction l with
  | nil => intro a; simp
  | cons x xs ih =>
    intro a
    simp only [List.foldl_cons, List.map_cons, List.sum_cons, ih (a + f x)]
    omega

theorem imagesProcessedOf_eq_sum (rs : List BatchResult) (batches : List (List ImageData)) :
    imagesProcessedOf rs batches = succSizesSum rs batches := by
  rw [imagesProcessedOf, succSizesSum, foldl_add_map]
  omega

theorem imagesProcessedOf_nil (batches : List (List ImageData)) :
    imagesProcessedOf [] batches = 0 := rfl

theorem succSizesSum_append (a c : List BatchResult) (batches : List (List ImageData)) :
    succSizesSum (a ++ c) batches = succSizesSum a batches + succSizesSum c batches := by
  simp [succSizesSum, List.filter_append, List.map_append, List.sum_append]

theorem mapIdxFrom_take (f : Nat → List ImageData → BatchResult) :
    ∀ (l : List (List ImageData)) (i m : Nat),
    (mapIdxFrom f i l).take m = mapIdxFrom f i (l.take m) := by
  intro l
  induction l with
  | nil => intro i m; simp [mapIdxFrom]
  | cons x xs ih =>
    intro i m
    cases m with
    | zero => simp [mapIdxFrom]
    | succ k => simp [mapIdxFrom, List.take_succ_cons, ih (i + 1) k]

theorem take_min_length {α : Type} (l : List α) (m : Nat) :
    l.take (min m l.length) = l.take m := by
  by_cases h : m ≤ l.length
  · rw [min_eq_left h]
  · push_neg at h
    rw [min_eq_right (by omega), List.take_of_length_le (le_refl _),
      List.take_of_length_le (by omega)]

theorem waveBoundsGo_mem (len : Nat) : ∀ (fuel j m : Nat), m ∈ waveBoundsGo len fuel j →
    j < len ∧ min (j + 30) len ≤ m ∧ m ≤ len := by
  intro fuel
  induction fuel with
  | zero => intro j m hm; exact absurd hm (List.not_mem_nil m)
  | succ fuel ih =>
    intro j m hm
    simp only [waveBoundsGo] at hm
    by_cases hc : j < len
    · rw [if_pos hc] at hm
      rcases List.mem_cons.mp hm with hm | hm
      · subst hm; omega
      · have := ih (j + 30) m hm
        omega
    · rw [if_neg hc] at hm
      exact absurd hm (List.not_mem_nil m)

theorem processWavesGo_snd_spec (b : List (List ImageData)) (dl : String → Option String)
    (gen : Nat → List ImageData → Except String String) : ∀ (fuel i : Nat)
    (acc : List BatchResult),
    (processWavesGo b dl gen fuel i acc).2 =
      (waveBoundsGo b.length fuel i).map
        (fun m => succSizesSum (acc ++ (resultsFromAux b dl gen i).take (m - i)) b) := by
  intro fuel
  induction fuel with
  | zero => intro i acc; rfl
  | succ fuel ih =>
    intro i acc
    simp only [processWavesGo, waveBoundsGo]
    by_cases hc : i < b.length
    · rw [if_pos hc, if_pos hc]
      simp only [List.map_cons]
      congr 1
      · have hmin : min (i + 30) b.length - i = min 30 (b.length - i) := by omega
        have htake : (resultsFromAux b dl gen i).take (min (i + 30) b.length - i) =
            mapIdxFrom (fun idx bb => processBatch bb idx dl gen) i ((b.drop i).take 30) := by
          rw [hmin, resultsFromAux, mapIdxFrom_take]
          have hdl : (b.drop i).length = b.length - i := List.length_drop i b
          have : (b.drop i).take (min 30 (b.length - i)) = (b.drop i).take 30 := by
            rw [← hdl]
            exact take_min_length (b.drop i) 30
          rw [this]
        rw [htake, imagesProcessedOf_eq_sum]
      · rw [ih (i + 30)]
        apply List.map_congr_left
        intro m hm
        rcases waveBoundsGo_mem b.length fuel (i + 30) m hm with ⟨h30, hmin, hlen⟩
        have hsplit := resultsFromAux_split b dl gen i
        have hlen30 : (mapIdxFrom (fun idx bb => processBatch bb idx dl gen) i
            ((b.drop i).take 30)).length = 30 := by
          rw [mapIdxFrom_length, List.length_take, List.length_drop]
          omega
        have hmi : m - i = (mapIdxFrom (fun idx bb => processBatch bb idx dl gen) i
            ((b.drop i).take 30)).length + (m - (i + 30)) := by
          rw [hlen30]
          omega
        rw [hsplit, hmi, List.take_append, ← List.append_assoc]
    · rw [if_neg hc, if_neg hc]
      rfl

theorem processWavesAux_snd_spec (batches : List (List ImageData)) (dl : String → Option String)
    (gen : Nat → List ImageData → Except String String) :
    (processWavesAux batches dl gen 0 []).2 =
      (waveBoundsFrom batches.length 0).map
        (fun m => succSizesSum ((processWavesAux batches dl gen 0 []).1.take m) batches) := by
  rw [processWavesAux, waveBoundsFrom, processWavesGo_snd_spec]
  apply List.map_congr_left
  intro m hm
  rw [List.nil_append, Nat.sub_zero, processWavesGo_fst _ _ _ _ _ _ (by omega),
    List.nil_append]

theorem imagesProcessedOf_append (a c : List BatchResult) (batches : List (List ImageData)) :
    imagesProcessedOf (a ++ c) batches =
      imagesProcessedOf a batches + imagesProcessedOf c batches := by
  rw [imagesProcessedOf_eq_sum, imagesProcessedOf_eq_sum, imagesProcessedOf_eq_sum,
    succSizesSum_append]

theorem processWavesGo_chain (b : List (List ImageData)) (dl : String → Option String)
    (gen : Nat → List ImageData → Except String String) : ∀ (fuel i : Nat)
    (acc : List BatchResult),
    List.Chain' (fun x y => x ≤ y)
      (imagesProcessedOf acc b :: (processWavesGo b dl gen fuel i acc).2) := by
  intro fuel
  induction fuel with
  | zero => intro i acc; exact List.chain'_singleton _
  | succ fuel ih =>
    intro i acc
    simp only [processWavesGo]
    by_cases hc : i < b.length
    · rw [if_pos hc]
      simp only
      refine List.chain'_cons.mpr ⟨?_, ih (i + 30) _⟩
      rw [imagesProcessedOf_append]
      omega
    · rw [if_neg hc]
      exact List.chain'_singleton _

theorem processWavesGo_last (b : List (List ImageData)) (dl : String → Option String)
    (gen : Nat → List ImageData → Except String String) : ∀ (fuel i : Nat)
    (acc : List BatchResult),
    (imagesProcessedOf acc b :: (processWavesGo b dl gen fuel i acc).2).getLast? =
      some (imagesProcessedOf ((processWavesGo b dl gen fuel i acc).1) b) := by
  intro fuel
  induction fuel with
  | zero => intro i acc; rfl
  | succ fuel ih =>
    intro i acc
    simp only [processWavesGo]
    by_cases hc : i < b.length
    · rw [if_pos hc]
      simp only
      rw [List.getLast?_cons_cons]
      exact ih (i + 30) _
    · rw [if_neg hc]
      rfl

theorem processBatch_batchIndex (batch : List ImageData) (batchIndex : Nat)
    (dl : String → Option String) (gen : Nat → List ImageData → Except String String) :
    (processBatch batch batchIndex dl gen).batchIndex = batchIndex := by
  simp only [processBatch]
  by_cases he : batch.isEmpty
  · rw [if_pos he]
  · rw [if_neg he]
    cases gen batchIndex (batch.filter (fun img => (dl img.imageUrl).isSome)) with
    | ok report => rfl
    | error e => rfl

theorem getD_of_drop_cons {α : Type} (d : α) : ∀ (b : List α) (i : Nat) (x : α) (xs : List α),
    b.drop i = x :: xs → b.getD i d = x := by
  intro b
  induction b with
  | nil => intro i x xs h; simp at h
  | cons y ys ih =>
    intro i x xs h
    cases i with
    | zero => simp at h; simp [List.getD, h.1]
    | succ k =>
      simp only [List.drop_succ_cons] at h
      simpa [List.getD] using ih k x xs h

theorem sizes_sum_resultsFrom (b : List (List ImageData)) (dl : String → Option String)
    (gen : Nat → List ImageData → Except String String) :
    ∀ (l : List (List ImageData)) (i : Nat), l = b.drop i →
    ((mapIdxFrom (fun idx bb => processBatch bb idx dl gen) i l).map
      (fun r => (b.getD r.batchIndex []).length)).sum = (l.map List.length).sum := by
  intro l
  induction l with
  | nil => intro i h; rfl
  | cons x xs ih =>
    intro i h
    simp only [mapIdxFrom, List.map_cons, List.sum_cons, processBatch_batchIndex]
    have hx : b.getD i [] = x := getD_of_drop_cons [] b i x xs h.symm
    have hxs : xs = b.drop (i + 1) := by
      have : (b.drop i).drop 1 = b.drop (i + 1) := by
        rw [List.drop_drop]
      rw [← h] at this
      simpa using this
    rw [hx, ih (i + 1) hxs]

theorem sum_filter_map_le (p : BatchResult → Bool) (f : BatchResult → Nat) :
    ∀ (rs : List BatchResult), ((rs.filter p).map f).sum ≤ (rs.map f).sum := by
  intro rs
  induction rs with
  | nil => exact le_refl 0
  | cons r rest ih =>
    simp only [List.filter_cons]
    by_cases hp : p r
    · simp only [hp, if_pos, List.map_cons, List.sum_cons]
      simp only [Bool.not_eq_true'] at *
      simp [hp]
      omega
    · have hp' : p r = false := by simpa using hp
      simp only [hp', Bool.false_eq_true, if_false, List.map_cons, List.sum_cons]
      omega

theorem iPO_resultsFrom_le (b : List (List ImageData)) (dl : String → Option String)
    (gen : Nat → List ImageData → Except String String) :
    imagesProcessedOf (resultsFromAux b dl gen 0) b ≤ (b.map List.length).sum := by
  rw [imagesProcessedOf_eq_sum, succSizesSum]
  calc ((( resultsFromAux b dl gen 0).filter (fun r => r.success)).map
        (fun r => (b.getD r.batchIndex []).length)).sum
      ≤ ((resultsFromAux b dl gen 0).map (fun r => (b.getD r.batchIndex []).length)).sum :=
        sum_filter_map_le _ _ _
    _ = (b.map List.length).sum := by
        rw [resultsFromAux, List.drop_zero, sizes_sum_resultsFrom b dl gen b 0 (by rw [List.drop_zero])]

theorem tieredBatchSize_pos (n : Nat) : 0 < tieredBatchSize n := by
  unfold tieredBatchSize
  split_ifs <;> omega

theorem resolve_length_le (store : String → Option ImageDoc) :
    ∀ (ids : List String) (idx : Nat), (resolveImagesFrom ids store idx).length ≤ ids.length := by
  intro ids
  induction ids with
  | nil => intro idx; exact le_refl 0
  | cons id rest ih =>
    intro idx
    simp only [resolveImagesFrom]
    cases store id with
    | none =>
      simp only [List.length_cons]
      have := ih (idx + 1)
      omega
    | some d =>
      simp only [List.length_cons]
      have := ih (idx + 1)
      omega

theorem batches_sizes_sum (imageData : List ImageData) (imageCount : Nat)
    (hlen : imageData.length ≤ imageCount) :
    ((batchesOf imageData imageCount).map List.length).sum = imageData.length := by
  rw [← List.length_flatten, batchesOf,
    join_makeBatchesFrom imageData imageCount (tieredBatchSize imageCount) hlen
      (tieredBatchSize_pos imageCount) 0, List.drop_zero, reindexFrom_length]

theorem waveResults_iPO_le (imageData : List ImageData) (imageCount : Nat)
    (dl : String → Option String) (gen : Nat → List ImageData → Except String String)
    (hlen : imageData.length ≤ imageCount) :
    imagesProcessedOf (waveResults imageData imageCount dl gen)
      (batchesOf imageData imageCount) ≤ imageCount := by
  rw [waveResults, processWavesAux_fst, List.nil_append]
  calc imagesProcessedOf (resultsFromAux (batchesOf imageData imageCount) dl gen 0)
        (batchesOf imageData imageCount)
      ≤ ((batchesOf imageData imageCount).map List.length).sum := iPO_resultsFrom_le _ _ _
    _ = imageData.length := batches_sizes_sum imageData imageCount hlen
    _ ≤ imageCount := hlen

theorem waveWrites_chain (imageData : List ImageData) (imageCount : Nat)
    (dl : String → Option String) (gen : Nat → List ImageData → Except String String) :
    List.Chain' (fun x y => x ≤ y) (0 :: waveWrites imageData imageCount dl gen) := by
  have h := processWavesGo_chain (batchesOf imageData imageCount) dl gen
    (batchesOf imageData imageCount).length 0 []
  rw [imagesProcessedOf_nil] at h
  exact h

theorem waveWrites_last (imageData : List ImageData) (imageCount : Nat)
    (dl : String → Option String) (gen : Nat → List ImageData → Except String String) :
    (0 :: waveWrites imageData imageCount dl gen).getLast? =
      some (imagesProcessedOf (waveResults imageData imageCount dl gen)
        (batchesOf imageData imageCount)) := by
  have h := processWavesGo_last (batchesOf imageData imageCount) dl gen
    (batchesOf imageData imageCount).length 0 []
  rw [imagesProcessedOf_nil] at h
  exact h

theorem runBatchMode_trace_chain (imageData : List ImageData) (imageCount : Nat)
    (reportStyle reportDepth : String) (dl : String → Option String)
    (gen : Nat → List ImageData → Except String String) (reportId bucketName : String)
    (hlen : imageData.length ≤ imageCount) :
    List.Chain' (fun x y => x ≤ y)
      ((runBatchMode imageData imageCount reportStyle reportDepth dl gen reportId
        bucketName).progressTrace) := by
  simp only [runBatchMode]
  rw [← List.cons_append]
  refine List.chain'_append.mpr ⟨waveWrites_chain imageData imageCount dl gen, ?_, ?_⟩
  · by_cases hf : (failedFirstAttempt imageData imageCount dl gen).length > 0
    · rw [if_pos hf]
      refine List.chain'_cons.mpr ⟨?_, List.chain'_singleton _⟩
      exact waveResults_iPO_le imageData imageCount dl gen hlen
    · rw [if_neg hf]
      exact List.chain'_singleton _
  · intro x hx y hy
    rw [waveWrites_last imageData imageCount dl gen] at hx
    simp only [Option.mem_def, Option.some.injEq] at hx
    subst hx
    by_cases hf : (failedFirstAttempt imageData imageCount dl gen).length > 0
    · rw [if_pos hf] at hy
      simp only [List.cons_append, List.head?_cons, Option.mem_def, Option.some.injEq] at hy
      subst hy
      exact le_refl _
    · rw [if_neg hf] at hy
      simp only [List.nil_append, List.head?_cons, Option.mem_def, Option.some.injEq] at hy
      subst hy
      exact waveResults_iPO_le imageData imageCount dl gen hlen

/-- C8.  During one run the sequence of imagesProcessed values written to
the progress field is monotonically non-decreasing (for the batch path:
the initial zero, the after-wave cumulative values, the pre-retry
repetition of the last cumulative value, and the final full count; for
the single path the single zero), and each after-wave value is exactly
the cumulative sum of the sizes of the batches marked successful among
the batches processed so far. -/
theorem progressTrace_monotone_and_wave_writes :
    (∀ (status : String) (imageIds : List String)
      (prompt userId reportStyle reportDepth : String) (store : String → Option ImageDoc)
      (dl : String → Option String) (gen : Nat → List ImageData → Except String String)
      (genSingle : List ImageData → Except String String) (storeErr : Option String)
      (reportId bucketName : String),
      List.Chain' (fun x y => x ≤ y)
        ((generateReportRun status imageIds prompt userId reportStyle reportDepth store dl gen
          genSingle storeErr reportId bucketName).progressTraceOf)) ∧
    (∀ (batches : List (List ImageData)) (dl : String → Option String)
      (gen : Nat → List ImageData → Except String String),
      (processWavesAux batches dl gen 0 []).2 =
        (waveBoundsFrom batches.length 0).map
          (fun m => succSizesSum ((processWavesAux batches dl gen 0 []).1.take m) batches)) := by
  constructor
  · intro status imageIds prompt userId reportStyle reportDepth store dl gen genSingle storeErr
      reportId bucketName
    simp only [generateReportRun]
    by_cases h1 : status ≠ "pending"
    · rw [if_pos h1]
      exact List.chain'_nil
    · rw [if_neg h1]
      by_cases h2 : imageIds = [] ∨ prompt = "" ∨ userId = ""
      · rw [if_pos h2]
        exact List.chain'_nil
      · rw [if_neg h2]
        by_cases h3 : resolveImagesFrom imageIds store 0 = []
        · rw [if_pos h3]
          exact List.chain'_nil
        · rw [if_neg h3]
          cases storeErr with
          | some e => exact List.chain'_nil
          | none =>
            simp only
            by_cases h4 : imageIds.length > BATCH_THRESHOLD
            · rw [if_pos h4]
              simp only [RunResult.progressTraceOf]
              exact runBatchMode_trace_chain (resolveImagesFrom imageIds store 0)
                imageIds.length reportStyle reportDepth dl gen reportId bucketName
                (resolve_length_le store imageIds 0)
            · rw [if_neg h4]
              cases hs : runSingleMode (resolveImagesFrom imageIds store 0) dl genSingle
                  reportId bucketName with
              | ok info =>
                simp only [RunResult.progressTraceOf]
                have : info.progressTrace = [0] := by
                  simp only [runSingleMode] at hs
                  cases hg : genSingle ((resolveImagesFrom imageIds store 0).filter
                      (fun img => (dl img.imageUrl).isSome)) with
                  | error e => rw [hg] at hs; exact absurd hs (by simp)
                  | ok content =>
                    rw [hg] at hs
                    simp only [Except.ok.injEq] at hs
                    rw [← hs]
                rw [this]
                exact List.chain'_singleton _
              | error e => exact List.chain'_nil
  · intro batches dl gen
    exact processWavesAux_snd_spec batches dl gen

/-- C10 evaluation.  Resetting the failed record img1 via
retryTextExtraction updates exactly that record (status pending, error
deleted) and leaves img2 untouched - but the emitted event is an update,
and imageTextExtraction is registered with onDocumentCreated, so the
update triggers NO extraction run: the claimed (and intended, per the
source comment "Reset status to pending to trigger the function")
re-extraction never happens. -/
theorem retryReset_frame_and_no_retrigger :
    (retryTextExtractionRun retryStore (some "u1") "img1").toOption.map
        (fun p => (p.1 "img1", p.1 "img2", p.1 "img3", imageTextExtractionTriggersOn p.2)) =
      some (some ⟨"u1", "a.jpg", "url1", "", "pending", none⟩,
        some ⟨"u1", "b.jpg", "url2", "text b", "completed", none⟩,
        none,
        false) := by decide
